import Mathlib

/-!
Shallow embedding of `ciede2000.go` (package `ciede2000`, repository
KaspariK/CIEDE2000): the sRGB → XYZ → CIELAB conversion chain and the
CIEDE2000 colour-difference formula, together with proofs about the
embedded definitions.

Floating-point values are modelled by `FP`: either a finite real number
(`FP.num x`, an exact-real idealisation in which rounding and overflow are
ignored — adequate at the magnitudes this program produces) or `FP.nan`,
standing for any non-finite IEEE-754 value (NaN or an infinity).  Every
arithmetic operation propagates `FP.nan`; comparisons involving `FP.nan`
are false, exactly as IEEE comparisons involving NaN are.  The only
division by zero reachable in this program is `0/0` (which IEEE maps to
NaN), and no reachable computation produces an infinity, so collapsing
NaN and the infinities into the single element `FP.nan` is faithful here.
-/

namespace Ciede2000

open scoped Classical

/-- Model of a Go `float64`: a finite real number or a non-finite value. -/
inductive FP where
  | num : ℝ → FP
  | nan : FP

namespace FP

/-- `+` on float64 (finite values idealised as exact reals). -/
noncomputable def add : FP → FP → FP
  | num x, num y => num (x + y)
  | _, _ => nan

/-- `-` (binary) on float64. -/
noncomputable def sub : FP → FP → FP
  | num x, num y => num (x - y)
  | _, _ => nan

/-- `*` on float64.  `nan * x = nan` for every `x`, as in IEEE arithmetic
(`NaN * 0` is NaN). -/
noncomputable def mul : FP → FP → FP
  | num x, num y => num (x * y)
  | _, _ => nan

/-- `/` on float64.  Division by zero yields a non-finite value
(IEEE: `0/0 = NaN`, `x/0 = ±Inf`), hence `nan` in this model. -/
noncomputable def div : FP → FP → FP
  | num x, num y => if y = 0 then nan else num (x / y)
  | _, _ => nan

/-- Unary negation on float64. -/
noncomputable def neg : FP → FP
  | num x => num (-x)
  | nan => nan

/-- `math.Sqrt`: NaN on negative arguments, propagates non-finite input. -/
noncomputable def sqrt : FP → FP
  | num x => if x < 0 then nan else num (Real.sqrt x)
  | nan => nan

/-- `math.Pow`.  Every call in this package has a nonnegative finite base
(a square root, an average of square roots, a positive quotient, or the
literal 25), so the model restricts to nonnegative bases, where Go's `Pow`
agrees with the real power `Real.rpow` (including `Pow(x, 0) = 1` and
`Pow(0, y) = 0` for `y > 0`).  Go's special rules for negative bases with
integral exponents are never exercised and are mapped to `nan`. -/
noncomputable def pow : FP → FP → FP
  | num x, num y => if x < 0 then nan else num (x ^ y)
  | _, _ => nan

/-- `math.Sin` (total on finite arguments; `Sin(NaN) = Sin(±Inf) = NaN`). -/
noncomputable def sin : FP → FP
  | num x => num (Real.sin x)
  | nan => nan

/-- `math.Cos`. -/
noncomputable def cos : FP → FP
  | num x => num (Real.cos x)
  | nan => nan

/-- `math.Exp` (overflow ignored; arguments in this program are small). -/
noncomputable def exp : FP → FP
  | num x => num (Real.exp x)
  | nan => nan

/-- `math.Asin`: NaN when the argument lies outside `[-1, 1]`. -/
noncomputable def asin : FP → FP
  | num x => if x < -1 ∨ 1 < x then nan else num (Real.arcsin x)
  | nan => nan

/-- `math.Abs`. -/
noncomputable def abs : FP → FP
  | num x => num |x|
  | nan => nan

/-- Go `==` on float64: false whenever either side is non-finite
(IEEE: every comparison with NaN is false; `Inf == Inf`, which would be
true, is never reached in this program). -/
def goEq : FP → FP → Prop
  | num x, num y => x = y
  | _, _ => False

/-- Go `<=` on float64: false whenever either side is non-finite. -/
def goLe : FP → FP → Prop
  | num x, num y => x ≤ y
  | _, _ => False

/-- Go `<` on float64: false whenever either side is non-finite. -/
def goLt : FP → FP → Prop
  | num x, num y => x < y
  | _, _ => False

noncomputable instance : Add FP := ⟨FP.add⟩
noncomputable instance : Sub FP := ⟨FP.sub⟩
noncomputable instance : Mul FP := ⟨FP.mul⟩
noncomputable instance : Div FP := ⟨FP.div⟩
noncomputable instance : Neg FP := ⟨FP.neg⟩

noncomputable instance instOfNatFP (n : ℕ) : OfNat FP n := ⟨FP.num (n : ℝ)⟩

noncomputable instance instOfScientificFP : OfScientific FP :=
  ⟨fun m s e => FP.num (OfScientific.ofScientific m s e)⟩

@[simp] theorem ofNat_def (n : ℕ) :
    (OfNat.ofNat n : FP) = FP.num (n : ℝ) := rfl

@[simp] theorem ofScientific_def (m : ℕ) (s : Bool) (e : ℕ) :
    (OfScientific.ofScientific m s e : FP) = FP.num (OfScientific.ofScientific m s e) := rfl

@[simp] theorem num_add (x y : ℝ) : num x + num y = num (x + y) := rfl

@[simp] theorem num_sub (x y : ℝ) : num x - num y = num (x - y) := rfl

@[simp] theorem num_mul (x y : ℝ) : num x * num y = num (x * y) := rfl

@[simp] theorem num_neg (x : ℝ) : -(num x) = num (-x) := rfl

@[simp] theorem add_nan (a : FP) : a + nan = nan := by cases a <;> rfl

@[simp] theorem nan_add (a : FP) : nan + a = nan := by cases a <;> rfl

@[simp] theorem sub_nan (a : FP) : a - nan = nan := by cases a <;> rfl

@[simp] theorem nan_sub (a : FP) : nan - a = nan := by cases a <;> rfl

@[simp] theorem mul_nan (a : FP) : a * nan = nan := by cases a <;> rfl

@[simp] theorem nan_mul (a : FP) : nan * a = nan := by cases a <;> rfl

@[simp] theorem div_nan (a : FP) : a / nan = nan := by cases a <;> rfl

@[simp] theorem nan_div (a : FP) : nan / a = nan := by cases a <;> rfl

theorem num_div (x y : ℝ) (hy : y ≠ 0) : num x / num y = num (x / y) := by
  show div _ _ = _
  simp [div, hy]

theorem num_div_zero (x : ℝ) : num x / num 0 = nan := by
  show div _ _ = _
  simp [div]

theorem sqrt_num {x : ℝ} (hx : 0 ≤ x) : sqrt (num x) = num (Real.sqrt x) := by
  simp [sqrt, not_lt.2 hx]

@[simp] theorem sqrt_nan : sqrt nan = nan := rfl

theorem pow_num {x : ℝ} (y : ℝ) (hx : 0 ≤ x) :
    pow (num x) (num y) = num (x ^ y) := by
  simp [pow, not_lt.2 hx]

@[simp] theorem pow_nan (a : FP) : pow a nan = nan := by cases a <;> rfl

@[simp] theorem nan_pow (a : FP) : pow nan a = nan := by cases a <;> rfl

@[simp] theorem sin_num (x : ℝ) : sin (num x) = num (Real.sin x) := rfl

@[simp] theorem cos_num (x : ℝ) : cos (num x) = num (Real.cos x) := rfl

@[simp] theorem exp_num (x : ℝ) : exp (num x) = num (Real.exp x) := rfl

theorem asin_num {x : ℝ} (h1 : -1 ≤ x) (h2 : x ≤ 1) :
    asin (num x) = num (Real.arcsin x) := by
  simp [asin, not_lt.2 h1, not_lt.2 h2]

@[simp] theorem abs_num (x : ℝ) : abs (num x) = num |x| := rfl

@[simp] theorem goEq_num (x y : ℝ) : goEq (num x) (num y) ↔ x = y := Iff.rfl

@[simp] theorem goLe_num (x y : ℝ) : goLe (num x) (num y) ↔ x ≤ y := Iff.rfl

@[simp] theorem goLt_num (x y : ℝ) : goLt (num x) (num y) ↔ x < y := Iff.rfl

@[simp] theorem num_injEq (x y : ℝ) : num x = num y ↔ x = y :=
  ⟨fun h => by cases h; rfl, fun h => by rw [h]⟩

@[simp] theorem num_ne_nan (x : ℝ) : num x ≠ nan := by intro h; cases h

@[simp] theorem nan_ne_num (x : ℝ) : nan ≠ num x := by intro h; cases h

end FP

/-- Go's `math.Atan2(y, x)` on finite arguments (the sign of a zero is not
tracked, so `Atan2(±0, ·)` follows the `+0` rules; the distinction is never
observable in this program). -/
noncomputable def atan2 (y x : ℝ) : ℝ :=
  if 0 < x then Real.arctan (y / x)
  else if x < 0 ∧ 0 ≤ y then Real.arctan (y / x) + Real.pi
  else if x < 0 then Real.arctan (y / x) - Real.pi
  else if x = 0 ∧ 0 < y then Real.pi / 2
  else if x = 0 ∧ y < 0 then -(Real.pi / 2)
  else 0

namespace FP

/-- `math.Atan2` lifted to float64 values. -/
noncomputable def atan2 : FP → FP → FP
  | num y, num x => num (Ciede2000.atan2 y x)
  | _, _ => nan

@[simp] theorem atan2_num (y x : ℝ) :
    atan2 (num y) (num x) = num (Ciede2000.atan2 y x) := rfl

end FP

theorem atan2_zero_of_pos {x : ℝ} (hx : 0 < x) : atan2 0 x = 0 := by
  simp [atan2, hx]

theorem atan2_neg_one_zero : atan2 (-1) 0 = -(Real.pi / 2) := by
  simp only [atan2]
  norm_num

/-- The caller's colour value (the `image/color.Color` collaborator): an
opaque colour with three 8-bit channels, red/green/blue.  Any alpha channel
is irrelevant to `Distance`, which discards the fourth result of `RGBA()`,
so it is not modelled. -/
structure Color where
  r : Fin 256
  g : Fin 256
  b : Fin 256

/-- Go's `color.Color.RGBA()` for an opaque colour, as implemented by
`image/color` (e.g. `color.RGBA`): each 8-bit channel is replicated into
16 bits, `v | v<<8 = 257*v`, giving values in `[0, 65535]`; the alpha
result is discarded by the caller (`ciede2000.go` line 131). -/
def Color.RGBA (c : Color) : ℕ × ℕ × ℕ :=
  (257 * c.r.val, 257 * c.g.val, 257 * c.b.val)

/-- `ciede2000.go` lines 134-136: the channel value is divided by 255
(`r /= 255`) before linearisation. -/
noncomputable def rgbaNorm (n : ℕ) : ℝ := (n : ℝ) / 255

/-- `ciede2000.go` lines 139-155: the sRGB inverse-gamma branch, written
out once per channel in the source (the source's own TODO asks for this
break-out into a function). -/
noncomputable def srgbLin (v : ℝ) : ℝ :=
  if v > 0.04045 then ((v + 0.055) / 1.055) ^ (2.4 : ℝ) else v / 12.92

/-- `ciede2000.go` lines 122-126. -/
structure xyz where
  x : ℝ
  y : ℝ
  z : ℝ

/-- `ciede2000.go` lines 130-166: RGBA channels divided by 255, gamma
branch, rescale by 100, fixed sRGB/D65 matrix. -/
noncomputable def toXYZ (c : Color) : xyz :=
  let r := srgbLin (rgbaNorm c.RGBA.1) * 100
  let g := srgbLin (rgbaNorm c.RGBA.2.1) * 100
  let b := srgbLin (rgbaNorm c.RGBA.2.2) * 100
  ⟨(r * 0.4124) + (g * 0.3576) + (b * 0.1805),
   (r * 0.2126) + (g * 0.7152) + (b * 0.0722),
   (r * 0.0193) + (g * 0.1192) + (b * 0.9505)⟩

/-- `ciede2000.go` lines 183-199, broken out (the source inlines the same
expression for each axis, with a TODO asking for the break-out).  The Go
source reads `math.Pow(x, 1/3)` and `(16 / 116)`: both `1/3` and `16/116`
are quotients of untyped integer constants, so Go evaluates them with
integer division — `1/3 = 0` and `16/116 = 0` — before converting to
float64.  The embedded expression keeps the integer divisions visible. -/
noncomputable def labComp (v : ℝ) : ℝ :=
  if v > 0.008856 then v ^ (((1 / 3 : ℤ) : ℝ)) else (v * 7.787) + ((16 / 116 : ℤ) : ℝ)

/-- Per the spec (§4.3): "if the normalized value exceeds 0.008856, take its
cube root; otherwise compute `7.787 × v + 16/116`" — the companding function
the specification describes, for comparison with `labComp` above. -/
noncomputable def labCompFromSpec (v : ℝ) : ℝ :=
  if v > 0.008856 then v ^ ((1 / 3 : ℝ)) else 7.787 * v + 16 / 116

/-- `ciede2000.go` lines 168-172. -/
structure lab where
  l : ℝ
  a : ℝ
  b : ℝ

/-- `ciede2000.go` lines 174-206: normalise XYZ against the D65 white
point, apply the companding branch per axis, combine into L, a, b. -/
noncomputable def toLAB (c : Color) : lab :=
  let q := toXYZ c
  let x := labComp (q.x / 95.047)
  let y := labComp (q.y / 100.000)
  let z := labComp (q.z / 108.883)
  ⟨(116 * y) - 16, 500 * (x - y), 200 * (y - z)⟩

/-
The body of `Distance` (`ciede2000.go` lines 30-120).  The source computes
the formula as a straight-line sequence of local variables over the two LAB
values `l1 := toLAB(c1)` and `l2 := toLAB(c2)`; each local is embedded as a
definition over the pair `(l1, l2)`, in source order.  Reassigned locals get
a fresh name: `deltaH0` is the branch result of lines 67-77 and `deltaH` its
overwrite at line 79; `nDeltaL`, `nDeltaC`, `nDeltaH` are the values after
the `/=` normalisations of lines 113-115 (with `kL = kC = kH = 1.0`).
-/
namespace D

/-- Line 35: `cStar1 := math.Sqrt((l1.a * l1.a) + (l1.b * l1.b))`. -/
noncomputable def cStar1 (l1 l2 : lab) : FP :=
  FP.sqrt ((FP.num l1.a * FP.num l1.a) + (FP.num l1.b * FP.num l1.b))

/-- Line 36. -/
noncomputable def cStar2 (l1 l2 : lab) : FP :=
  FP.sqrt ((FP.num l2.a * FP.num l2.a) + (FP.num l2.b * FP.num l2.b))

/-- Line 38: `cBar := (cStar1 + cStar2) / 2`. -/
noncomputable def cBar (l1 l2 : lab) : FP := (cStar1 l1 l2 + cStar2 l1 l2) / 2

/-- Line 40: `g := 0.5 * (1 - math.Sqrt(math.Pow(cBar, 7)/(math.Pow(cBar, 7)+math.Pow(25, 7))))`. -/
noncomputable def g (l1 l2 : lab) : FP :=
  0.5 * (1 - FP.sqrt (FP.pow (cBar l1 l2) 7 / (FP.pow (cBar l1 l2) 7 + FP.pow 25 7)))

/-- Line 42: `aPrime1 := (1 + g) * l1.a`. -/
noncomputable def aPrime1 (l1 l2 : lab) : FP := (1 + g l1 l2) * FP.num l1.a

/-- Line 43. -/
noncomputable def aPrime2 (l1 l2 : lab) : FP := (1 + g l1 l2) * FP.num l2.a

/-- Line 45: `cPrime1 := math.Sqrt((aPrime1 * aPrime1) + (l1.b * l1.b))`. -/
noncomputable def cPrime1 (l1 l2 : lab) : FP :=
  FP.sqrt ((aPrime1 l1 l2 * aPrime1 l1 l2) + (FP.num l1.b * FP.num l1.b))

/-- Line 46. -/
noncomputable def cPrime2 (l1 l2 : lab) : FP :=
  FP.sqrt ((aPrime2 l1 l2 * aPrime2 l1 l2) + (FP.num l2.b * FP.num l2.b))

/-- Lines 48-54: `if l1.b == 0 && aPrime1 == 0 { hPrime1 = 0 } else { hPrime1 = math.Atan2(l1.b, aPrime1) }`. -/
noncomputable def hPrime1 (l1 l2 : lab) : FP :=
  if FP.goEq (FP.num l1.b) 0 ∧ FP.goEq (aPrime1 l1 l2) 0 then 0
  else FP.atan2 (FP.num l1.b) (aPrime1 l1 l2)

/-- Lines 56-62. -/
noncomputable def hPrime2 (l1 l2 : lab) : FP :=
  if FP.goEq (FP.num l2.b) 0 ∧ FP.goEq (aPrime2 l1 l2) 0 then 0
  else FP.atan2 (FP.num l2.b) (aPrime2 l1 l2)

/-- Line 64: `deltaL := l2.l - l1.l`. -/
noncomputable def deltaL (l1 l2 : lab) : FP := FP.num l2.l - FP.num l1.l

/-- Line 65: `deltaC := cPrime2 - cPrime1`. -/
noncomputable def deltaC (l1 l2 : lab) : FP := cPrime2 l1 l2 - cPrime1 l1 l2

/-- Lines 67-77: the branch on `cPrime1*cPrime2 == 0`, `|hPrime2-hPrime1| <= 180`,
`hPrime2-hPrime1 > 180`. -/
noncomputable def deltaH0 (l1 l2 : lab) : FP :=
  if FP.goEq (cPrime1 l1 l2 * cPrime2 l1 l2) 0 then 0
  else if FP.goLe (FP.abs (hPrime2 l1 l2 - hPrime1 l1 l2)) 180 then
    hPrime2 l1 l2 - hPrime1 l1 l2
  else if FP.goLt 180 (hPrime2 l1 l2 - hPrime1 l1 l2) then
    (hPrime2 l1 l2 - hPrime1 l1 l2) - 360
  else (hPrime2 l1 l2 - hPrime1 l1 l2) + 360

/-- Line 79: `deltaH = 2 * math.Sqrt(cPrime1*cPrime2) * math.Sin(deltaH/2)`. -/
noncomputable def deltaH (l1 l2 : lab) : FP :=
  2 * FP.sqrt (cPrime1 l1 l2 * cPrime2 l1 l2) * FP.sin (deltaH0 l1 l2 / 2)

/-- Line 81. -/
noncomputable def lBarPrime (l1 l2 : lab) : FP := (FP.num l1.l + FP.num l2.l) / 2

/-- Line 82. -/
noncomputable def cBarPrime (l1 l2 : lab) : FP := (cPrime1 l1 l2 + cPrime2 l1 l2) / 2

/-- Lines 84-94: the circular-mean branch for `hBarPrime`. -/
noncomputable def hBarPrime (l1 l2 : lab) : FP :=
  if FP.goEq (cPrime1 l1 l2 * cPrime2 l1 l2) 0 then hPrime1 l1 l2 + hPrime2 l1 l2
  else if FP.goLe (FP.abs (hPrime1 l1 l2 - hPrime2 l1 l2)) 180 then
    (hPrime1 l1 l2 + hPrime2 l1 l2) / 2
  else if FP.goLt 180 (FP.abs (hPrime1 l1 l2 - hPrime2 l1 l2)) ∧
      FP.goLt (FP.abs (hPrime1 l1 l2 - hPrime2 l1 l2)) 360 then
    ((hPrime1 l1 l2 + hPrime2 l1 l2) + 360) / 2
  else ((hPrime1 l1 l2 + hPrime2 l1 l2) - 360) / 2

/-- Line 96. -/
noncomputable def t (l1 l2 : lab) : FP :=
  1 - (0.17 * FP.cos (hBarPrime l1 l2 - 30)) + (0.24 * FP.cos (2 * hBarPrime l1 l2)) +
    (0.32 * FP.cos (3 * hBarPrime l1 l2 + 6)) - (0.20 * FP.cos (4 * hBarPrime l1 l2 - 63))

/-- Line 98: `deltaTheta := 30 * math.Exp(-(((hBarPrime - 275) / 25) * ((hBarPrime - 275) / 25)))`. -/
noncomputable def deltaTheta (l1 l2 : lab) : FP :=
  30 * FP.exp (-(((hBarPrime l1 l2 - 275) / 25) * ((hBarPrime l1 l2 - 275) / 25)))

/-- Line 100: `rC := 2 * math.Sqrt(math.Pow(cBarPrime, 7)/(math.Pow(cBarPrime, 7)*math.Pow(25, 7)))`.
Note the `*` between the two powers in the denominator. -/
noncomputable def rC (l1 l2 : lab) : FP :=
  2 * FP.sqrt (FP.pow (cBarPrime l1 l2) 7 / (FP.pow (cBarPrime l1 l2) 7 * FP.pow 25 7))

/-- Per the spec (§4.4 step 10): "`R_C = 2·sqrt(C̄'⁷ / (C̄'⁷ + 25⁷))` — …
this must use addition in the denominator" — the rotation magnitude the
specification describes, for comparison with `rC` above. -/
noncomputable def rCFromSpec (l1 l2 : lab) : FP :=
  2 * FP.sqrt (FP.pow (cBarPrime l1 l2) 7 / (FP.pow (cBarPrime l1 l2) 7 + FP.pow 25 7))

/-- Line 103. -/
noncomputable def sL (l1 l2 : lab) : FP :=
  1 + (0.015 * ((lBarPrime l1 l2 - 50) * (lBarPrime l1 l2 - 50))) /
    (FP.sqrt (20 + ((lBarPrime l1 l2 - 50) * (lBarPrime l1 l2 - 50))))

/-- Line 104. -/
noncomputable def sC (l1 l2 : lab) : FP := 1 + (0.045 * cBarPrime l1 l2)

/-- Line 105. -/
noncomputable def sH (l1 l2 : lab) : FP := 1 + (0.015 * cBarPrime l1 l2 * t l1 l2)

/-- Line 106: `rT := math.Asin(2 * deltaTheta) * rC`.  Note `Asin`. -/
noncomputable def rT (l1 l2 : lab) : FP :=
  FP.asin (2 * deltaTheta l1 l2) * rC l1 l2

/-- Per the spec (§4.4 step 10): "`R_T = sin(2·Δθ)·R_C` (… the reference
formula uses `sin`, not `asin`, of the doubled angle)" — the same expression
as `rT` with the sine in place of the arcsine (the code's own `rC` factor is
kept so that exactly the sine/arcsine choice is compared). -/
noncomputable def rTFromSpec (l1 l2 : lab) : FP :=
  FP.sin (2 * deltaTheta l1 l2) * rC l1 l2

/-- Line 113 (with `kL = 1.0` from line 109): `deltaL /= kL * sL`. -/
noncomputable def nDeltaL (l1 l2 : lab) : FP := deltaL l1 l2 / (1.0 * sL l1 l2)

/-- Line 114. -/
noncomputable def nDeltaC (l1 l2 : lab) : FP := deltaC l1 l2 / (1.0 * sC l1 l2)

/-- Line 115. -/
noncomputable def nDeltaH (l1 l2 : lab) : FP := deltaH l1 l2 / (1.0 * sH l1 l2)

/-- Line 117: `deltaE := math.Sqrt((deltaL * deltaL) + (deltaC * deltaC) + (deltaH * deltaH) + (rT * deltaC * deltaH))`. -/
noncomputable def deltaE (l1 l2 : lab) : FP :=
  FP.sqrt ((nDeltaL l1 l2 * nDeltaL l1 l2) + (nDeltaC l1 l2 * nDeltaC l1 l2) +
    (nDeltaH l1 l2 * nDeltaH l1 l2) + (rT l1 l2 * nDeltaC l1 l2 * nDeltaH l1 l2))

end D

/-- `ciede2000.go` lines 30-120: `Distance` converts both colours to LAB
and evaluates the formula body on the pair. -/
noncomputable def Distance (c1 c2 : Color) : FP :=
  D.deltaE (toLAB c1) (toLAB c2)

/-! ### Evaluation lemmas for the conversion chain -/

theorem int_one_div_three : ((1 / 3 : ℤ) : ℝ) = 0 := by
  have h : (1 / 3 : ℤ) = 0 := by decide
  rw [h, Int.cast_zero]

theorem int_sixteen_div : ((16 / 116 : ℤ) : ℝ) = 0 := by
  have h : (16 / 116 : ℤ) = 0 := by decide
  rw [h, Int.cast_zero]

theorem labComp_of_gt {v : ℝ} (h : 0.008856 < v) : labComp v = 1 := by
  rw [labComp, if_pos h, int_one_div_three, Real.rpow_zero]

theorem labComp_of_le {v : ℝ} (h : v ≤ 0.008856) : labComp v = v * 7.787 := by
  rw [labComp, if_neg (not_lt.2 h), int_sixteen_div, add_zero]

theorem rgbaNorm_nonneg (n : ℕ) : 0 ≤ rgbaNorm n := by
  rw [rgbaNorm]; positivity

theorem srgbLin_nonneg {v : ℝ} (hv : 0 ≤ v) : 0 ≤ srgbLin v := by
  rw [srgbLin]
  split
  · exact Real.rpow_nonneg (div_nonneg (by linarith) (by norm_num)) _
  · positivity

theorem srgbLin_rgbaNorm_zero : srgbLin (rgbaNorm 0) = 0 := by
  have h : rgbaNorm 0 = 0 := by rw [rgbaNorm]; norm_num
  rw [h, srgbLin, if_neg (by norm_num)]
  norm_num

theorem one_le_srgbLin {ch : ℕ} (h : ch ≠ 0) :
    1 ≤ srgbLin (rgbaNorm (257 * ch)) := by
  have h1 : (1 : ℝ) ≤ (ch : ℕ) := by exact_mod_cast Nat.one_le_iff_ne_zero.2 h
  have hv : (257 : ℝ) / 255 ≤ rgbaNorm (257 * ch) := by
    rw [rgbaNorm]
    push_cast
    rw [div_le_div_iff (by norm_num) (by norm_num)]
    nlinarith
  rw [srgbLin, if_pos (by rw [gt_iff_lt]; nlinarith)]
  have hbase : (1 : ℝ) ≤ (rgbaNorm (257 * ch) + 0.055) / 1.055 := by
    rw [le_div_iff (by norm_num)]
    nlinarith
  calc (1 : ℝ) = (1 : ℝ) ^ (2.4 : ℝ) := (Real.one_rpow _).symm
    _ ≤ ((rgbaNorm (257 * ch) + 0.055) / 1.055) ^ (2.4 : ℝ) :=
        Real.rpow_le_rpow (by norm_num) hbase (by norm_num)

theorem toXYZ_bounds {c : Color} (h : c.r.val ≠ 0 ∨ c.g.val ≠ 0 ∨ c.b.val ≠ 0) :
    0.008856 < (toXYZ c).x / 95.047 ∧ 0.008856 < (toXYZ c).y / 100.000 ∧
      0.008856 < (toXYZ c).z / 108.883 := by
  have hr0 := srgbLin_nonneg (rgbaNorm_nonneg (257 * c.r.val))
  have hg0 := srgbLin_nonneg (rgbaNorm_nonneg (257 * c.g.val))
  have hb0 := srgbLin_nonneg (rgbaNorm_nonneg (257 * c.b.val))
  simp only [toXYZ, Color.RGBA]
  refine ⟨?_, ?_, ?_⟩ <;> rw [lt_div_iff (by norm_num)] <;>
    rcases h with h | h | h <;> have h1 := one_le_srgbLin h <;> nlinarith

theorem toLAB_of_nonzero {c : Color}
    (h : c.r.val ≠ 0 ∨ c.g.val ≠ 0 ∨ c.b.val ≠ 0) :
    toLAB c = ⟨100, 0, 0⟩ := by
  obtain ⟨hx, hy, hz⟩ := toXYZ_bounds h
  simp only [toLAB, labComp_of_gt hx, labComp_of_gt hy, labComp_of_gt hz]
  simp only [lab.mk.injEq]
  norm_num

theorem toLAB_allZero {c : Color} (h1 : c.r.val = 0) (h2 : c.g.val = 0)
    (h3 : c.b.val = 0) : toLAB c = ⟨-16, 0, 0⟩ := by
  have hx : toXYZ c = ⟨0, 0, 0⟩ := by
    simp only [toXYZ, Color.RGBA, h1, h2, h3, Nat.mul_zero, srgbLin_rgbaNorm_zero]
    simp only [xyz.mk.injEq]
    norm_num
  have h0 : labComp 0 = 0 := by rw [labComp_of_le (by norm_num)]; ring
  simp only [toLAB, hx]
  norm_num [h0]

theorem toLAB_ab_zero (c : Color) : (toLAB c).a = 0 ∧ (toLAB c).b = 0 := by
  by_cases h : c.r.val = 0 ∧ c.g.val = 0 ∧ c.b.val = 0
  · rw [toLAB_allZero h.1 h.2.1 h.2.2]
    exact ⟨rfl, rfl⟩
  · have o : c.r.val ≠ 0 ∨ c.g.val ≠ 0 ∨ c.b.val ≠ 0 := by tauto
    rw [toLAB_of_nonzero o]
    exact ⟨rfl, rfl⟩

/-! ### Evaluation lemmas for the formula body -/

theorem pow25 : FP.pow 25 7 = FP.num ((25 : ℝ) ^ ((7 : ℕ) : ℝ)) := by
  rw [FP.ofNat_def, FP.ofNat_def, FP.pow_num _ (by norm_num)]
  norm_num

theorem pow25_pos : 0 < (25 : ℝ) ^ ((7 : ℕ) : ℝ) :=
  Real.rpow_pos_of_pos (by norm_num) _

theorem pow_num_zero : FP.pow (FP.num 0) 7 = FP.num 0 := by
  rw [FP.ofNat_def, FP.pow_num _ le_rfl, Real.zero_rpow (by norm_num)]

theorem cPrime_zero {l1 l2 : lab} (ha1 : l1.a = 0) (hb1 : l1.b = 0)
    (ha2 : l2.a = 0) (hb2 : l2.b = 0) :
    D.cPrime1 l1 l2 = FP.num 0 ∧ D.cPrime2 l1 l2 = FP.num 0 := by
  have hs : FP.sqrt ((FP.num 0 * FP.num 0) + (FP.num 0 * FP.num 0)) = FP.num 0 := by
    rw [FP.num_mul, FP.num_add, FP.sqrt_num (by norm_num)]
    norm_num
  have h1 : D.cStar1 l1 l2 = FP.num 0 := by rw [D.cStar1, ha1, hb1]; exact hs
  have h2 : D.cStar2 l1 l2 = FP.num 0 := by rw [D.cStar2, ha2, hb2]; exact hs
  have hcb : D.cBar l1 l2 = FP.num 0 := by
    rw [D.cBar, h1, h2, FP.num_add, FP.ofNat_def, FP.num_div _ _ (by norm_num)]
    norm_num
  have hg : D.g l1 l2 = FP.num 0.5 := by
    rw [D.g, hcb, pow_num_zero, pow25, FP.num_add,
      FP.num_div _ _ (by positivity), FP.sqrt_num (by positivity)]
    rw [FP.ofScientific_def, FP.ofNat_def]
    rw [FP.num_sub, FP.num_mul, FP.num_injEq]
    rw [zero_div, Real.sqrt_zero]
    norm_num
  have ha' : D.aPrime1 l1 l2 = FP.num 0 := by
    rw [D.aPrime1, hg, ha1, FP.ofNat_def, FP.num_add, FP.num_mul]
    norm_num
  have hb' : D.aPrime2 l1 l2 = FP.num 0 := by
    rw [D.aPrime2, hg, ha2, FP.ofNat_def, FP.num_add, FP.num_mul]
    norm_num
  constructor
  · rw [D.cPrime1, ha', hb1]; exact hs
  · rw [D.cPrime2, hb', hb2]; exact hs

theorem rc_rt_de_nan {l1 l2 : lab} (h1 : D.cPrime1 l1 l2 = FP.num 0)
    (h2 : D.cPrime2 l1 l2 = FP.num 0) :
    D.rC l1 l2 = FP.nan ∧ D.rT l1 l2 = FP.nan ∧ D.deltaE l1 l2 = FP.nan := by
  have hcb : D.cBarPrime l1 l2 = FP.num 0 := by
    rw [D.cBarPrime, h1, h2, FP.num_add, FP.ofNat_def, FP.num_div _ _ (by norm_num)]
    norm_num
  have hrc : D.rC l1 l2 = FP.nan := by
    rw [D.rC, hcb, pow_num_zero, pow25, FP.num_mul]
    rw [show ((0 : ℝ) * ((25 : ℝ) ^ ((7 : ℕ) : ℝ))) = 0 by ring]
    rw [FP.num_div_zero]
    simp
  have hrt : D.rT l1 l2 = FP.nan := by
    rw [D.rT, hrc, FP.mul_nan]
  refine ⟨hrc, hrt, ?_⟩
  rw [D.deltaE, hrt]
  simp

theorem distance_nan (c1 c2 : Color) : Distance c1 c2 = FP.nan := by
  obtain ⟨ha1, hb1⟩ := toLAB_ab_zero c1
  obtain ⟨ha2, hb2⟩ := toLAB_ab_zero c2
  obtain ⟨h1, h2⟩ := cPrime_zero ha1 hb1 ha2 hb2
  rw [Distance]
  exact (rc_rt_de_nan h1 h2).2.2

/-! ### Evaluation at inputs of classical chroma one

Both `lab.mk 50 1 0` and `lab.mk 50 0 (-1)` have `C* = 1`, so `cBar = 1`
and `g` takes the same value `g0` at both. -/

/-- The value of `g` (line 40) when both classical chromas equal 1. -/
noncomputable def g0 : ℝ :=
  0.5 * (1 - Real.sqrt (1 / (1 + (25 : ℝ) ^ ((7 : ℕ) : ℝ))))

theorem g0_nonneg : 0 ≤ g0 := by
  have h1 : (1 : ℝ) / (1 + (25 : ℝ) ^ ((7 : ℕ) : ℝ)) ≤ 1 := by
    rw [div_le_one (by positivity)]
    have := pow25_pos
    linarith
  have h2 : Real.sqrt (1 / (1 + (25 : ℝ) ^ ((7 : ℕ) : ℝ))) ≤ 1 := by
    calc Real.sqrt (1 / (1 + (25 : ℝ) ^ ((7 : ℕ) : ℝ))) ≤ Real.sqrt 1 :=
          Real.sqrt_le_sqrt h1
      _ = 1 := Real.sqrt_one
  rw [g0]
  linarith

theorem one_add_g0_pos : (0 : ℝ) < 1 + g0 := by
  have := g0_nonneg
  linarith

theorem g_eval_one {l1 l2 : lab} (h1 : D.cStar1 l1 l2 = FP.num 1)
    (h2 : D.cStar2 l1 l2 = FP.num 1) : D.g l1 l2 = FP.num g0 := by
  have hcb : D.cBar l1 l2 = FP.num 1 := by
    rw [D.cBar, h1, h2, FP.num_add, FP.ofNat_def, FP.num_div _ _ (by norm_num)]
    norm_num
  have hpow1 : FP.pow (FP.num 1) 7 = FP.num 1 := by
    rw [FP.ofNat_def, FP.pow_num _ (by norm_num), Real.one_rpow]
  rw [D.g, hcb, hpow1, pow25, FP.num_add, FP.num_div _ _ (by positivity),
    FP.sqrt_num (by positivity), FP.ofScientific_def, FP.ofNat_def, FP.num_sub,
    FP.num_mul, FP.num_injEq, g0]
  norm_num

/-- Shared evaluation at `l1 = l2 = lab.mk 50 1 0`: the corrected chroma. -/
theorem cPrime_eval_c3 :
    D.cPrime1 ⟨50, 1, 0⟩ ⟨50, 1, 0⟩ = FP.num (1 + g0) ∧
      D.cPrime2 ⟨50, 1, 0⟩ ⟨50, 1, 0⟩ = FP.num (1 + g0) := by
  have hs : FP.sqrt ((FP.num 1 * FP.num 1) + (FP.num 0 * FP.num 0)) = FP.num 1 := by
    simp only [FP.num_mul, FP.num_add]
    rw [FP.sqrt_num (by norm_num)]
    norm_num
  have h1 : D.cStar1 ⟨50, 1, 0⟩ ⟨50, 1, 0⟩ = FP.num 1 := by
    rw [D.cStar1]; exact hs
  have h2 : D.cStar2 ⟨50, 1, 0⟩ ⟨50, 1, 0⟩ = FP.num 1 := by
    rw [D.cStar2]; exact hs
  have hg := g_eval_one h1 h2
  have hap1 : D.aPrime1 ⟨50, 1, 0⟩ ⟨50, 1, 0⟩ = FP.num (1 + g0) := by
    rw [D.aPrime1, hg, FP.ofNat_def, FP.num_add, FP.num_mul, FP.num_injEq]
    norm_num
  have hap2 : D.aPrime2 ⟨50, 1, 0⟩ ⟨50, 1, 0⟩ = FP.num (1 + g0) := by
    rw [D.aPrime2, hg, FP.ofNat_def, FP.num_add, FP.num_mul, FP.num_injEq]
    norm_num
  have key : ∀ x : FP, x = FP.num (1 + g0) →
      FP.sqrt ((x * x) + (FP.num 0 * FP.num 0)) = FP.num (1 + g0) := by
    intro x hx
    rw [hx, FP.num_mul, FP.num_mul, FP.num_add, FP.sqrt_num (by nlinarith [one_add_g0_pos]),
      FP.num_injEq, mul_zero, add_zero, Real.sqrt_mul_self one_add_g0_pos.le]
  exact ⟨by rw [D.cPrime1]; exact key _ hap1, by rw [D.cPrime2]; exact key _ hap2⟩

theorem hPrime_eval_c3 :
    D.hPrime1 ⟨50, 1, 0⟩ ⟨50, 1, 0⟩ = FP.num 0 ∧
      D.hPrime2 ⟨50, 1, 0⟩ ⟨50, 1, 0⟩ = FP.num 0 := by
  have hs : FP.sqrt ((FP.num 1 * FP.num 1) + (FP.num 0 * FP.num 0)) = FP.num 1 := by
    simp only [FP.num_mul, FP.num_add]
    rw [FP.sqrt_num (by norm_num)]
    norm_num
  have hg := @g_eval_one ⟨50, 1, 0⟩ ⟨50, 1, 0⟩ (by rw [D.cStar1]; exact hs)
    (by rw [D.cStar2]; exact hs)
  have hap1 : D.aPrime1 ⟨50, 1, 0⟩ ⟨50, 1, 0⟩ = FP.num (1 + g0) := by
    rw [D.aPrime1, hg, FP.ofNat_def, FP.num_add, FP.num_mul, FP.num_injEq]
    norm_num
  have hap2 : D.aPrime2 ⟨50, 1, 0⟩ ⟨50, 1, 0⟩ = FP.num (1 + g0) := by
    rw [D.aPrime2, hg, FP.ofNat_def, FP.num_add, FP.num_mul, FP.num_injEq]
    norm_num
  constructor
  · rw [D.hPrime1, hap1, if_neg]
    · rw [FP.atan2_num, atan2_zero_of_pos one_add_g0_pos]
    · rintro ⟨-, h2⟩
      rw [FP.ofNat_def, FP.goEq_num] at h2
      have := one_add_g0_pos
      rw [h2] at this
      norm_num at this
  · rw [D.hPrime2, hap2, if_neg]
    · rw [FP.atan2_num, atan2_zero_of_pos one_add_g0_pos]
    · rintro ⟨-, h2⟩
      rw [FP.ofNat_def, FP.goEq_num] at h2
      have := one_add_g0_pos
      rw [h2] at this
      norm_num at this

theorem hBarPrime_eval_c3 : D.hBarPrime ⟨50, 1, 0⟩ ⟨50, 1, 0⟩ = FP.num 0 := by
  obtain ⟨hc1, hc2⟩ := cPrime_eval_c3
  obtain ⟨hh1, hh2⟩ := hPrime_eval_c3
  rw [D.hBarPrime, hc1, hc2, hh1, hh2, FP.num_mul, if_neg, if_pos]
  · rw [FP.num_add, FP.ofNat_def, FP.num_div _ _ (by norm_num), FP.num_injEq]
    norm_num
  · rw [FP.num_sub, FP.abs_num, FP.ofNat_def, FP.goLe_num]
    norm_num
  · rw [FP.ofNat_def, FP.goEq_num]
    push_cast
    nlinarith [one_add_g0_pos]

theorem deltaTheta_eval_c3 :
    D.deltaTheta ⟨50, 1, 0⟩ ⟨50, 1, 0⟩ = FP.num (30 * Real.exp (-121)) := by
  rw [D.deltaTheta, hBarPrime_eval_c3]
  simp only [FP.ofNat_def]
  rw [FP.num_sub, FP.num_div _ _ (by norm_num), FP.num_mul, FP.num_neg, FP.exp_num,
    FP.num_mul, FP.num_injEq]
  norm_num

theorem rC_eval_c3 : D.rC ⟨50, 1, 0⟩ ⟨50, 1, 0⟩ = FP.num (2 / 78125) := by
  obtain ⟨hc1, hc2⟩ := cPrime_eval_c3
  have hcbp : D.cBarPrime ⟨50, 1, 0⟩ ⟨50, 1, 0⟩ = FP.num (1 + g0) := by
    rw [D.cBarPrime, hc1, hc2, FP.num_add, FP.ofNat_def,
      FP.num_div _ _ (by norm_num), FP.num_injEq]
    ring
  have hppos : (0 : ℝ) < (1 + g0) ^ ((7 : ℕ) : ℝ) :=
    Real.rpow_pos_of_pos one_add_g0_pos _
  rw [D.rC, hcbp, pow25]
  simp only [FP.ofNat_def]
  rw [FP.pow_num _ one_add_g0_pos.le, FP.num_mul,
    FP.num_div _ _ (mul_pos hppos pow25_pos).ne',
    FP.sqrt_num (div_nonneg hppos.le (mul_pos hppos pow25_pos).le),
    FP.num_mul, FP.num_injEq]
  have key : (1 + g0) ^ ((7 : ℕ) : ℝ) / ((1 + g0) ^ ((7 : ℕ) : ℝ) * (25 : ℝ) ^ ((7 : ℕ) : ℝ)) =
      ((25 : ℝ) ^ ((7 : ℕ) : ℝ))⁻¹ := by
    rw [div_mul_eq_div_div, div_self hppos.ne', one_div]
  rw [key, Real.sqrt_inv, Real.rpow_natCast,
    show ((25 : ℝ) ^ (7 : ℕ)) = 78125 ^ 2 by norm_num, Real.sqrt_sq (by norm_num)]
  norm_num

theorem exp_neg_121_le : Real.exp (-121) ≤ 1 / 122 := by
  rw [Real.exp_neg, one_div]
  have h := Real.add_one_le_exp (121 : ℝ)
  exact inv_le_inv_of_le (by norm_num) (by linarith)

theorem rT_eval_c3 :
    D.rT ⟨50, 1, 0⟩ ⟨50, 1, 0⟩ =
      FP.num (Real.arcsin (60 * Real.exp (-121)) * (2 / 78125)) := by
  have hle : 60 * Real.exp (-121) ≤ 1 := by linarith [exp_neg_121_le]
  have hpos : (0 : ℝ) < 60 * Real.exp (-121) := by positivity
  rw [D.rT, deltaTheta_eval_c3, rC_eval_c3]
  simp only [FP.ofNat_def]
  rw [FP.num_mul,
    show ((2 : ℕ) : ℝ) * (30 * Real.exp (-121)) = 60 * Real.exp (-121) by push_cast; ring,
    FP.asin_num (by linarith) hle, FP.num_mul]

theorem rTFromSpec_eval_c3 :
    D.rTFromSpec ⟨50, 1, 0⟩ ⟨50, 1, 0⟩ =
      FP.num (Real.sin (60 * Real.exp (-121)) * (2 / 78125)) := by
  rw [D.rTFromSpec, deltaTheta_eval_c3, rC_eval_c3]
  simp only [FP.ofNat_def]
  rw [FP.num_mul,
    show ((2 : ℕ) : ℝ) * (30 * Real.exp (-121)) = 60 * Real.exp (-121) by push_cast; ring,
    FP.sin_num, FP.num_mul]

theorem hPrime_eval_c6 :
    D.hPrime1 ⟨50, 0, -1⟩ ⟨50, 0, -1⟩ = FP.num (-(Real.pi / 2)) := by
  have hs : FP.sqrt ((FP.num 0 * FP.num 0) + (FP.num (-1) * FP.num (-1))) = FP.num 1 := by
    simp only [FP.num_mul, FP.num_add]
    rw [FP.sqrt_num (by norm_num)]
    norm_num
  have hg := @g_eval_one ⟨50, 0, -1⟩ ⟨50, 0, -1⟩ (by rw [D.cStar1]; exact hs)
    (by rw [D.cStar2]; exact hs)
  have hap1 : D.aPrime1 ⟨50, 0, -1⟩ ⟨50, 0, -1⟩ = FP.num 0 := by
    rw [D.aPrime1, hg, FP.ofNat_def, FP.num_add, FP.num_mul, FP.num_injEq]
    norm_num
  rw [D.hPrime1, hap1, if_neg]
  · rw [FP.atan2_num, atan2_neg_one_zero]
  · rintro ⟨h1, -⟩
    rw [FP.ofNat_def, FP.goEq_num] at h1
    norm_num at h1

/-! ### The claims -/

/-- Claim C1: "For every pair of input colors whose channel values are
finite and in 8-bit range, Distance returns a non-negative finite 64-bit
floating point number (… never NaN or Infinity)."  The code violates this:
for every pair of 8-bit colours the result is NaN, because `toLAB` always
produces `a = b = 0`, so `rC` divides `0` by `0 * 25⁷ = 0` and the NaN
propagates to the final square root. -/
theorem c1_result_nan (c1 c2 : Color) : Distance c1 c2 = FP.nan :=
  distance_nan c1 c2

/-- Claim C2: "In the XYZ→LAB conversion … if the normalized value exceeds
0.008856 the conversion takes its cube root …, and otherwise it computes
7.787 times the value plus 16/116."  The code violates this on both
branches: Go evaluates the untyped constants `1/3` and `16/116` with
integer division, so the upper branch computes `Pow(v, 0) = 1` (at `v = 8`
the claimed cube root is 2) and the lower branch computes `7.787·v + 0`
(at `v = 0.008` the claimed value differs by `16/116`). -/
theorem c2_companding_integer_division :
    labComp 8 ≠ labCompFromSpec 8 ∧ labComp 0.008 ≠ labCompFromSpec 0.008 := by
  constructor
  · rw [labComp_of_gt (by norm_num), labCompFromSpec, if_pos (by norm_num),
      show (8 : ℝ) = 2 ^ (3 : ℕ) by norm_num,
      show (1 / 3 : ℝ) = (((3 : ℕ) : ℝ))⁻¹ by norm_num,
      Real.pow_rpow_inv_natCast (by norm_num) (by norm_num)]
    norm_num
  · rw [labComp_of_le (by norm_num), labCompFromSpec, if_neg (by norm_num)]
    norm_num

/-- Claim C3: "the rotation term is computed as R_T = sin(2·Δθ)·R_C, using
the sine (not the arcsine) of the doubled angle."  The code violates this:
line 106 applies `math.Asin`.  At the LAB pair `(50, 1, 0), (50, 1, 0)`
the code's `rT` and the specified sine form evaluate to different values
(`arcsin u > u > sin u` at `u = 60·exp(−121) > 0`). -/
theorem c3_rotation_uses_arcsine :
    D.rT ⟨50, 1, 0⟩ ⟨50, 1, 0⟩ ≠ D.rTFromSpec ⟨50, 1, 0⟩ ⟨50, 1, 0⟩ := by
  rw [rT_eval_c3, rTFromSpec_eval_c3, Ne, FP.num_injEq]
  intro h
  have hpos : (0 : ℝ) < 60 * Real.exp (-121) := by positivity
  have hle : 60 * Real.exp (-121) ≤ 1 := by linarith [exp_neg_121_le]
  have heq : Real.arcsin (60 * Real.exp (-121)) = Real.sin (60 * Real.exp (-121)) :=
    mul_right_cancel₀ (by norm_num) h
  have h1 : Real.sin (60 * Real.exp (-121)) < 60 * Real.exp (-121) := Real.sin_lt hpos
  have ha : 0 < Real.arcsin (60 * Real.exp (-121)) := Real.arcsin_pos.2 hpos
  have hs : Real.sin (Real.arcsin (60 * Real.exp (-121))) = 60 * Real.exp (-121) :=
    Real.sin_arcsin (by linarith) hle
  have h2 := Real.sin_lt ha
  linarith

/-- Claim C4: "the rotation magnitude term is computed as
R_C = 2·sqrt(C̄'⁷ / (C̄'⁷ + 25⁷)), with addition … in the denominator."
The code violates this: line 100 multiplies the two powers.  At the LAB
pair `(50, 0, 0), (50, 0, 0)` (both achromatic, `C̄' = 0`) the code's `rC`
is `2·sqrt(0/0) = NaN`, while the specified additive form gives 0. -/
theorem c4_rc_denominator_multiplies :
    D.rC ⟨50, 0, 0⟩ ⟨50, 0, 0⟩ = FP.nan ∧
      D.rCFromSpec ⟨50, 0, 0⟩ ⟨50, 0, 0⟩ = FP.num 0 := by
  obtain ⟨h1, h2⟩ := @cPrime_zero ⟨50, 0, 0⟩ ⟨50, 0, 0⟩ rfl rfl rfl rfl
  have hcb : D.cBarPrime ⟨50, 0, 0⟩ ⟨50, 0, 0⟩ = FP.num 0 := by
    rw [D.cBarPrime, h1, h2, FP.num_add, FP.ofNat_def, FP.num_div _ _ (by norm_num)]
    norm_num
  refine ⟨(rc_rt_de_nan h1 h2).1, ?_⟩
  rw [D.rCFromSpec, hcb, pow_num_zero, pow25, FP.num_add,
    FP.num_div _ _ (by positivity), FP.sqrt_num (by positivity), FP.ofNat_def,
    FP.num_mul, FP.num_injEq, zero_div, Real.sqrt_zero, mul_zero]

/-- Claim C5: "each channel value fed into the linearization stage is an
8-bit-range red, green or blue value normalized into [0, 1] by dividing
the integer channel by 255."  The code violates this: `c.RGBA()` returns
16-bit-range values (channel 255 yields 65535), and dividing by 255 feeds
257 — far outside [0, 1] — into the linearization branch. -/
theorem c5_channel_norm_exceeds_one :
    rgbaNorm (Color.RGBA ⟨255, 255, 255⟩).1 = 257 ∧
      1 < rgbaNorm (Color.RGBA ⟨255, 255, 255⟩).1 := by
  have h : (Color.RGBA ⟨255, 255, 255⟩).1 = 65535 := by decide
  rw [h, rgbaNorm]
  norm_num

/-- Claim C6: "the hue angle h'_i is computed in degrees via the
two-argument arctangent of (b_i, a'_i), is defined as 0 when both b_i and
a'_i are exactly zero, and is normalized into the range [0, 360)."  The
zero special case is present, but the code violates the rest: the
`math.Atan2` result is left in radians and never normalized, so at the LAB
input `(50, 0, -1)` the hue angle is `-π/2 < 0`, outside [0, 360). -/
theorem c6_hue_angle_negative :
    D.hPrime1 ⟨50, 0, -1⟩ ⟨50, 0, -1⟩ = FP.num (-(Real.pi / 2)) ∧
      -(Real.pi / 2) < 0 :=
  ⟨hPrime_eval_c6, by have := Real.pi_pos; linarith⟩

/-- Claim C7: "For every color c …, Distance(c, c) equals 0."  The code
violates this: `Distance(c, c)` is NaN (the zero-chroma `0/0` in `rC`),
not 0 — shown here at `c = (0, 0, 0)`. -/
theorem c7_identity_fails :
    Distance ⟨0, 0, 0⟩ ⟨0, 0, 0⟩ = FP.nan ∧
      Distance ⟨0, 0, 0⟩ ⟨0, 0, 0⟩ ≠ FP.num 0 := by
  have h := distance_nan ⟨0, 0, 0⟩ ⟨0, 0, 0⟩
  refine ⟨h, ?_⟩
  rw [h]
  exact FP.nan_ne_num 0

/-- Claim C8: "For all colors a and b …, Distance(a, b) equals
Distance(b, a)."  This holds: the two calls return the identical value
(in fact both return NaN for every pair of 8-bit colours, see C1/C10). -/
theorem c8_symmetric (a b : Color) : Distance a b = Distance b a := by
  rw [distance_nan, distance_nan]

/-- Claim C9: "For every input color, toLAB returns a LAB value with a = 0
and b = 0; in particular, for every color with at least one nonzero
channel it returns exactly (L=100, a=0, b=0) …".  This holds: with a
nonzero channel, each white-point-normalized XYZ component exceeds
0.008856, and the above-threshold branch `math.Pow(v, 1/3)` is
`Pow(v, 0) = 1` by Go integer division. -/
theorem c9_toLAB_constant (c : Color) :
    (toLAB c).a = 0 ∧ (toLAB c).b = 0 ∧
      ((c.r.val ≠ 0 ∨ c.g.val ≠ 0 ∨ c.b.val ≠ 0) → toLAB c = ⟨100, 0, 0⟩) :=
  ⟨(toLAB_ab_zero c).1, (toLAB_ab_zero c).2, fun h => toLAB_of_nonzero h⟩

/-- Witness for C9 at the colour `(1, 0, 0)`. -/
theorem c9_toLAB_constant_witness : toLAB ⟨1, 0, 0⟩ = ⟨100, 0, 0⟩ :=
  (c9_toLAB_constant ⟨1, 0, 0⟩).2.2 (Or.inl (by decide))

/-- Claim C10: "Whenever both inputs' corrected chromas C'_1 and C'_2 are
zero (e.g. both LAB values have a = b = 0), the R_C computation divides
zero by zero, so rC and rT are NaN and Distance returns NaN rather than a
real number."  This holds: from `C'_1 = C'_2 = 0` the mean chroma is 0,
`rC = 2·sqrt(0/(0·25⁷)) = NaN`, `rT = Asin(…)·NaN = NaN`, and the final
square root of `… + rT·ΔC·ΔH` is NaN. -/
theorem c10_zero_chroma_nan {l1 l2 : lab} (h1 : D.cPrime1 l1 l2 = FP.num 0)
    (h2 : D.cPrime2 l1 l2 = FP.num 0) :
    D.rC l1 l2 = FP.nan ∧ D.rT l1 l2 = FP.nan ∧ D.deltaE l1 l2 = FP.nan :=
  rc_rt_de_nan h1 h2

/-- Witness for C10 at the achromatic LAB pair `(50, 0, 0), (60, 0, 0)`. -/
theorem c10_zero_chroma_nan_witness :
    D.rC ⟨50, 0, 0⟩ ⟨60, 0, 0⟩ = FP.nan ∧ D.rT ⟨50, 0, 0⟩ ⟨60, 0, 0⟩ = FP.nan ∧
      D.deltaE ⟨50, 0, 0⟩ ⟨60, 0, 0⟩ = FP.nan :=
  c10_zero_chroma_nan (@cPrime_zero ⟨50, 0, 0⟩ ⟨60, 0, 0⟩ rfl rfl rfl rfl).1
    (@cPrime_zero ⟨50, 0, 0⟩ ⟨60, 0, 0⟩ rfl rfl rfl rfl).2

end Ciede2000
